import Mathlib

/-!
Verification development for the restaurant chatbot dialogue engine
(`backend/chatbot.py`) and its knowledge base (`backend/knowledge_base.py`).

Strings are modelled as `List Char`; Python's `str.lower`, `str.strip`,
`str.split`, substring containment (`in`), and the small fragment of
`re` actually used by the code are embedded below.  All definitions are
executable; theorems about them follow after the definitions.
-/

namespace Chatbot

/-- ASCII whitespace, as recognised by Python's `str.strip` / `str.split`
on the ASCII messages this system handles. -/
def isSpaceChar (c : Char) : Bool :=
  c = ' ' || c = '\t' || c = '\n' || c = '\r' || c = Char.ofNat 11 || c = Char.ofNat 12

/-- Word characters for the regex `\b` boundary: `[a-zA-Z0-9_]`. -/
def isWordChar (c : Char) : Bool :=
  c.isAlphanum || c = '_'

/-- Python `str.lower` (ASCII). -/
def lowerStr (s : List Char) : List Char :=
  s.map Char.toLower

/-- Python `str.strip`: drop leading and trailing whitespace. -/
def stripStr (s : List Char) : List Char :=
  ((s.dropWhile isSpaceChar).reverse.dropWhile isSpaceChar).reverse

/-- Helper for `splitWs`, carrying the current (reversed) word. -/
def splitWsAux : List Char → List Char → List (List Char)
  | [], acc => if acc.isEmpty then [] else [acc.reverse]
  | c :: rest, acc =>
    if isSpaceChar c then
      if acc.isEmpty then splitWsAux rest []
      else acc.reverse :: splitWsAux rest []
    else splitWsAux rest (c :: acc)

/-- Python `str.split()` with no argument: split on whitespace runs,
dropping empty pieces. -/
def splitWs (s : List Char) : List (List Char) :=
  splitWsAux s []

/-- Python substring containment `needle in hay`.  Like Python, the empty
needle is contained in everything. -/
def infixB : List Char → List Char → Bool
  | n, [] => n.isEmpty
  | n, c :: rest => n.isPrefixOf (c :: rest) || infixB n rest

/-- Helper for `normSpaces`: the Bool records whether the previous
character was whitespace (so a run collapses to one space). -/
def normSpacesGo : Bool → List Char → List Char
  | _, [] => []
  | prevSpace, c :: rest =>
    if isSpaceChar c then
      if prevSpace then normSpacesGo true rest
      else ' ' :: normSpacesGo true rest
    else c :: normSpacesGo false rest

/-- Python `re.sub(r'\s+', ' ', s)`: collapse whitespace runs to one space. -/
def normSpaces (s : List Char) : List Char :=
  normSpacesGo false s

/-- First maximal run of decimal digits in the message
(`re.findall(r'\d+', message)[0]`), when one exists. -/
def firstDigitRun (s : List Char) : Option (List Char) :=
  match s.dropWhile (fun c => !c.isDigit) with
  | [] => none
  | rest => some (rest.takeWhile Char.isDigit)

/-- Parse a run of decimal digits, like Python `int` on a digit string. -/
def digitsToNat (ds : List Char) : Nat :=
  ds.foldl (fun n c => 10 * n + (c.toNat - '0'.toNat)) 0

/-! ### Regex engine

The rule table uses only a small fragment of `re`: literal characters,
alternation, concatenation, `.*`, `\s*`, an optional apostrophe (`\'?`),
the word boundary `\b`, and one negative lookahead `(?!...)`.  The
matcher below is a fuel-bounded backtracking matcher in continuation
style; the `Option Char` argument is the character just before the
current position (needed for `\b`). -/

inductive RE where
  | eps : RE
  | ch : Char → RE
  | anyc : RE
  | ws : RE
  | alt : RE → RE → RE
  | cat : RE → RE → RE
  | star : RE → RE
  | bound : RE
  | nla : RE → RE
deriving DecidableEq

/-- Size of a regex, used to compute a sufficient fuel bound. -/
def reSize : RE → Nat
  | .eps => 1
  | .ch _ => 1
  | .anyc => 1
  | .ws => 1
  | .alt r1 r2 => reSize r1 + reSize r2 + 1
  | .cat r1 r2 => reSize r1 + reSize r2 + 1
  | .star r => reSize r + 1
  | .bound => 1
  | .nla r => reSize r + 1

/-- Is the `\b` condition satisfied between `prev` and the head of `s`? -/
def boundOk (prev : Option Char) (s : List Char) : Bool :=
  (match prev with | none => false | some c => isWordChar c)
    != (match s with | [] => false | c :: _ => isWordChar c)

/-- Fuel-bounded backtracking matcher.  `k` is the continuation receiving
the new previous-character and the remaining input. -/
def reM : Nat → RE → Option Char → List Char → (Option Char → List Char → Bool) → Bool
  | 0, _, _, _, _ => false
  | _ + 1, .eps, prev, s, k => k prev s
  | _ + 1, .ch c, _, s, k =>
    match s with
    | [] => false
    | a :: rest => a == c && k (some a) rest
  | _ + 1, .anyc, _, s, k =>
    match s with
    | [] => false
    | a :: rest => k (some a) rest
  | _ + 1, .ws, _, s, k =>
    match s with
    | [] => false
    | a :: rest => isSpaceChar a && k (some a) rest
  | fuel + 1, .alt r1 r2, prev, s, k =>
    reM fuel r1 prev s k || reM fuel r2 prev s k
  | fuel + 1, .cat r1 r2, prev, s, k =>
    reM fuel r1 prev s (fun p' s' => reM fuel r2 p' s' k)
  | fuel + 1, .star r, prev, s, k =>
    k prev s || reM fuel r prev s (fun p' s' => reM fuel (.star r) p' s' k)
  | _ + 1, .bound, prev, s, k => boundOk prev s && k prev s
  | fuel + 1, .nla r, prev, s, k =>
    !(reM fuel r prev s (fun _ _ => true)) && k prev s

/-- Try to match `r` at every start position (Python `re.search`). -/
def reSearchAux (fuel : Nat) (r : RE) : Option Char → List Char → Bool
  | prev, [] => reM fuel r prev [] (fun _ _ => true)
  | prev, a :: rest =>
    reM fuel r prev (a :: rest) (fun _ _ => true) || reSearchAux fuel r (some a) rest

/-- Python `re.search(r, s) is not None`, with generous fuel. -/
def reSearch (r : RE) (s : List Char) : Bool :=
  reSearchAux ((s.length + 2) * (reSize r + 2)) r none s

/-- Literal word as a regex. -/
def lit (w : String) : RE :=
  w.toList.foldr (fun c r => .cat (.ch c) r) .eps

/-- Alternation of a list of regexes (`a|b|c`); the empty list never
matches. -/
def alts : List RE → RE
  | [] => .nla .eps
  | [r] => r
  | r :: rest => .alt r (alts rest)

/-- Concatenation of a list of regexes. -/
def cats : List RE → RE
  | [] => .eps
  | [r] => r
  | r :: rest => .cat r (cats rest)

/-- `.*` -/
def anyStar : RE := .star .anyc

/-- `\s*` -/
def wsStar : RE := .star .ws

/-- The apostrophe character (escaped `\'` in the Python patterns). -/
def apos : Char := Char.ofNat 39

/-- `\'?` : optional apostrophe. -/
def aposOpt : RE := .alt (.ch apos) .eps

/-- `a.*b` style pattern: literals separated by `.*`. -/
def dotted (ws : List String) : RE :=
  cats ((ws.map lit).intersperse anyStar)

/-- `a\s*b` style pattern: literals separated by `\s*`. -/
def wsSep (ws : List String) : RE :=
  cats ((ws.map lit).intersperse wsStar)

/-- Wrap a group in `\b...\b`, as in `\b( ... )\b`. -/
def bounded (r : RE) : RE :=
  cats [.bound, r, .bound]

/-! ### Intent rule table (`INTENT_PATTERNS` in `chatbot.py`)

Each Python raw-string pattern is transcribed into the `RE` AST.  The
messages are lower-cased before matching, and all pattern literals are
lower-case, so the `re.IGNORECASE` flag in the source is a no-op here. -/

/-- `\b(hi|hello|hey|good\s*(morning|afternoon|evening)|greetings)\b` -/
def patGreeting : RE :=
  bounded (alts [lit "hi", lit "hello", lit "hey",
    cats [lit "good", wsStar, alts [lit "morning", lit "afternoon", lit "evening"]],
    lit "greetings"])

/-- `\b(menu|show.*menu|what.*have|what.*offer|list.*items|food.*list|available|options)\b` -/
def patMenuQuery : RE :=
  bounded (alts [lit "menu", dotted ["show", "menu"], dotted ["what", "have"],
    dotted ["what", "offer"], dotted ["list", "items"], dotted ["food", "list"],
    lit "available", lit "options"])

/-- `\b(pizza|drink|dessert|side|appetizer|beverage|category)\b` -/
def patCategoryQuery : RE :=
  bounded (alts [lit "pizza", lit "drink", lit "dessert", lit "side",
    lit "appetizer", lit "beverage", lit "category"])

/-- `\b(tell.*about|describe|what.*is|details|ingredients|info.*about)\b` -/
def patItemDetails : RE :=
  bounded (alts [dotted ["tell", "about"], lit "describe", dotted ["what", "is"],
    lit "details", lit "ingredients", dotted ["info", "about"]])

/-- `\b(track|where.*(is|my)|order\s*(status|#|number)|status.*order|how\s*long|my\s*order)\b` -/
def patTrackOrder : RE :=
  bounded (alts [lit "track",
    cats [lit "where", anyStar, alts [lit "is", lit "my"]],
    cats [lit "order", wsStar, alts [lit "status", lit "#", lit "number"]],
    dotted ["status", "order"], wsSep ["how", "long"], wsSep ["my", "order"]])

/-- `\b(yes|confirm|proceed|place.*order|go\s*ahead|sure|okay|ok|yep|yup)\b` -/
def patConfirmOrder : RE :=
  bounded (alts [lit "yes", lit "confirm", lit "proceed", dotted ["place", "order"],
    wsSep ["go", "ahead"], lit "sure", lit "okay", lit "ok", lit "yep", lit "yup"])

/-- `\b(cancel|remove|delete|never\s*mind|forget\s*it|don\'?t\s*want)\b` -/
def patCancelOrder : RE :=
  bounded (alts [lit "cancel", lit "remove", lit "delete", wsSep ["never", "mind"],
    wsSep ["forget", "it"],
    cats [lit "don", aposOpt, lit "t", wsStar, lit "want"]])

/-- `\b(want|i\'?d\s*like|get\s*me|give\s*me|buy|purchase|add.*cart)\b` -/
def patOrderIntentA : RE :=
  bounded (alts [lit "want",
    cats [lit "i", aposOpt, lit "d", wsStar, lit "like"],
    wsSep ["get", "me"], wsSep ["give", "me"], lit "buy", lit "purchase",
    dotted ["add", "cart"]])

/-- `\border\b(?!\s*(status|#|number))` -/
def patOrderIntentB : RE :=
  cats [.bound, lit "order", .bound,
    .nla (cats [wsStar, alts [lit "status", lit "#", lit "number"]])]

/-- `\b(help|support|problem|issue|complaint|speak.*human|manager|wrong)\b` -/
def patSupport : RE :=
  bounded (alts [lit "help", lit "support", lit "problem", lit "issue",
    lit "complaint", dotted ["speak", "human"], lit "manager", lit "wrong"])

/-- `\b(who.*are.*you|are.*you.*(real|ai|bot|human)|what.*can.*you.*do|your.*name|do.*you.*eat)\b` -/
def patPersonaQuery : RE :=
  bounded (alts [dotted ["who", "are", "you"],
    cats [lit "are", anyStar, lit "you", anyStar,
      alts [lit "real", lit "ai", lit "bot", lit "human"]],
    dotted ["what", "can", "you", "do"], dotted ["your", "name"],
    dotted ["do", "you", "eat"]])

/-- The long KB-query alternation in `INTENT_PATTERNS["KB_QUERY"]`. -/
def patKbQuery : RE :=
  bounded (alts [lit "allergy", lit "allergen", lit "gluten", lit "nutrition",
    lit "calorie", lit "ingredient", lit "policy", lit "refund",
    dotted ["delivery", "time"], lit "hours", lit "open", lit "contact",
    lit "phone", lit "email", lit "promo", lit "deal", lit "discount",
    lit "coupon", lit "loyalty", lit "reward", lit "custom", lit "modify",
    lit "topping", lit "history", lit "origin", lit "fact", lit "trivia",
    lit "dough", lit "rise", lit "yeast", lit "science", lit "reaction",
    lit "oven", lit "temp", lit "pineapple", dotted ["deep", "dish"],
    dotted ["thin", "crust"]])

/-- The ordered intent rule table (`INTENT_PATTERNS`), in source
declaration order — the order is load-bearing (first match wins). -/
def INTENT_PATTERNS : List (String × List RE) :=
  [("GREETING", [patGreeting]),
   ("MENU_QUERY", [patMenuQuery]),
   ("CATEGORY_QUERY", [patCategoryQuery]),
   ("ITEM_DETAILS", [patItemDetails]),
   ("TRACK_ORDER", [patTrackOrder]),
   ("CONFIRM_ORDER", [patConfirmOrder]),
   ("CANCEL_ORDER", [patCancelOrder]),
   ("ORDER_INTENT", [patOrderIntentA, patOrderIntentB]),
   ("SUPPORT", [patSupport]),
   ("PERSONA_QUERY", [patPersonaQuery]),
   ("KB_QUERY", [patKbQuery])]

/-- The nested `for` loops of `classify_intent`, with early return. -/
def classifyGo : List (String × List RE) → List Char → String
  | [], _ => "UNKNOWN"
  | (intent, pats) :: rest, m =>
    if pats.any (fun p => reSearch p m) then intent else classifyGo rest m

/-- `RestaurantChatbot.classify_intent`: lower-case and strip the
message, then return the first intent whose pattern set matches. -/
def classify_intent (message : List Char) : String :=
  classifyGo INTENT_PATTERNS (stripStr (lowerStr message))

/-! ### Entity extraction (`extract_menu_items`, `extract_quantity`) -/

/-- A menu item record as consumed by the chatbot (price as an exact
rational standing for the Python float). -/
structure MenuItem where
  id : Nat
  item : List Char
  price : ℚ
  category : List Char
deriving DecidableEq

/-- The four matching checks of `extract_menu_items`, OR-ed: full-name
substring, leading token longer than 3 chars, any token longer than 3
chars, or the two-token compound prefix. -/
def itemMatches (msgNorm : List Char) (it : MenuItem) : Bool :=
  let nameLower := lowerStr it.item
  let words := splitWs nameLower
  let mainName := words.headD []
  infixB nameLower msgNorm
    || (mainName.length > 3 && infixB mainName msgNorm)
    || words.any (fun w => w.length > 3 && infixB w msgNorm)
    || (words.length ≥ 2 &&
        infixB ((words.take 2).intersperse [' ']).flatten msgNorm)

/-- The accumulator loop of `extract_menu_items`: each matching item is
appended once (the `item not in found_items` guard). -/
def extractGo (msgNorm : List Char) : List MenuItem → List MenuItem → List MenuItem
  | [], acc => acc.reverse
  | it :: rest, acc =>
    if itemMatches msgNorm it ∧ it ∉ acc then extractGo msgNorm rest (it :: acc)
    else extractGo msgNorm rest acc

/-- `RestaurantChatbot.extract_menu_items`: lower-case, strip and
space-normalize the message, then collect matching catalog items in
catalog order, de-duplicated. -/
def extract_menu_items (message : List Char) (menuItems : List MenuItem) : List MenuItem :=
  extractGo (normSpaces (stripStr (lowerStr message))) menuItems []

/-- The `number_words` table of `extract_quantity`, in source (dict
insertion) order. -/
def numberWords : List (List Char × Nat) :=
  [("one".toList, 1), ("two".toList, 2), ("three".toList, 3), ("four".toList, 4),
   ("five".toList, 5), ("six".toList, 6), ("seven".toList, 7), ("eight".toList, 8),
   ("nine".toList, 9), ("ten".toList, 10)]

/-- The `for word, num in number_words.items()` loop with early return. -/
def findNumberWord : List (List Char × Nat) → List Char → Option Nat
  | [], _ => none
  | (w, n) :: rest, ml => if infixB w ml then some n else findNumberWord rest ml

/-- `RestaurantChatbot.extract_quantity`: first number word contained in
the lower-cased message wins; otherwise the first decimal digit run is
parsed; otherwise 1. -/
def extract_quantity (message : List Char) : Nat :=
  match findNumberWord numberWords (lowerStr message) with
  | some n => n
  | none =>
    match firstDigitRun message with
    | some ds => digitsToNat ds
    | none => 1

/-! ### Per-user session state and its transitions -/

/-- One cart line (`cart_item` dict in `process_message`). -/
structure CartLine where
  menu_item_id : Nat
  item : List Char
  price : ℚ
  quantity : Nat
deriving DecidableEq

/-- Per-user conversation context (`get_user_context`).  `pending_order`
is initialized but never read or written by any handler. -/
structure Session where
  cart : List CartLine
  pending_order : Option Nat
  last_intent : Option String
  order_history : List Nat
deriving DecidableEq

/-- The context created on first contact by `get_user_context`. -/
def freshSession : Session :=
  { cart := [], pending_order := none, last_intent := none, order_history := [] }

/-- Increment the quantity of the first cart line with the given menu
item id (the `existing["quantity"] += quantity` branch). -/
def incFirst (itemId qty : Nat) : List CartLine → List CartLine
  | [] => []
  | l :: rest =>
    if l.menu_item_id = itemId then { l with quantity := l.quantity + qty } :: rest
    else l :: incFirst itemId qty rest

/-- One iteration of the ORDER_INTENT loop body: increment an existing
line for this item, or append a new line. -/
def addToCart (cart : List CartLine) (it : MenuItem) (qty : Nat) : List CartLine :=
  if cart.any (fun l => l.menu_item_id == it.id) then incFirst it.id qty cart
  else cart ++ [{ menu_item_id := it.id, item := it.item, price := it.price, quantity := qty }]

/-- The whole ORDER_INTENT cart mutation: extract items and a quantity,
then fold the additions over the cart. -/
def orderIntentCart (message : List Char) (menu : List MenuItem) (cart : List CartLine) :
    List CartLine :=
  let found := extract_menu_items message menu
  let qty := extract_quantity message
  found.foldl (fun c it => addToCart c it qty) cart

/-- The session-state effect of one `process_message` call: `last_intent`
is always recorded; ORDER_INTENT mutates the cart via the extractor;
CANCEL_ORDER clears a non-empty cart; every other intent (including
CONFIRM_ORDER and TRACK_ORDER) leaves the cart alone. -/
def sessionStep (message : List Char) (menu : List MenuItem) (s : Session) : Session :=
  let intent := classify_intent message
  let s1 := { s with last_intent := some intent }
  if intent = "ORDER_INTENT" then
    { s1 with cart := orderIntentCart message menu s1.cart }
  else if intent = "CANCEL_ORDER" then
    if s1.cart ≠ [] then { s1 with cart := [] } else s1
  else s1

/-- Sessions reachable from a fresh context by any sequence of messages
(with arbitrary menu snapshots). -/
inductive Reachable : Session → Prop
  | init : Reachable freshSession
  | step (message : List Char) (menu : List MenuItem) {s : Session} :
      Reachable s → Reachable (sessionStep message menu s)

/-- Total computed by the CONFIRM_ORDER branch:
`sum(i["price"] * i["quantity"] for i in context["cart"])`. -/
def cartTotal (cart : List CartLine) : ℚ :=
  (cart.map (fun l => l.price * (l.quantity : ℚ))).sum

/-- The CONFIRM_ORDER branch's `data` payload: `none` for an empty cart
("nothing to confirm"), otherwise the cart, the total, and the
`requires_details` flag. -/
def confirmOrderData (s : Session) : Option (List CartLine × ℚ × Bool) :=
  if s.cart = [] then none
  else some (s.cart, cartTotal s.cart, true)

/-! ### Order tracking (`TRACK_ORDER` branch) -/

/-- An order snapshot record (creation time as a Nat; greater = newer). -/
structure OrderRec where
  id : Nat
  status : List Char
  total_amount : ℚ
  customer_phone : List Char
  created_at : Nat
deriving DecidableEq

/-- `re.search(r'#?(\d+)', message)`: the first digit run, parsed. -/
def extractOrderId (message : List Char) : Option Nat :=
  (firstDigitRun message).map digitsToNat

/-- The order-selection logic of the TRACK_ORDER branch (only entered
when the snapshot is non-empty).  Mirrors the Python truthiness of
`if order_id:`: a parsed id of 0 behaves like no id.  With no id, the
caller's orders (matched by phone) are consulted and the LAST element of
that filtered list is taken (`user_orders[-1]`); with none, the first
snapshot record is the fallback. -/
def trackTarget (orders : List OrderRec) (userId : List Char) (message : List Char) :
    Option OrderRec :=
  let byPhone :=
    let userOrders := orders.filter (fun o => o.customer_phone == userId)
    match userOrders.getLast? with
    | some o => some o
    | none => orders.head?
  match extractOrderId message with
  | some n => if n ≠ 0 then orders.find? (fun o => o.id == n) else byPhone
  | none => byPhone

/-! ### Knowledge base (`knowledge_base.py`) -/

/-- A knowledge base entry (timestamps as Nats supplied by the caller of
the embedded operations). -/
structure KBEntry where
  id : Nat
  category : List Char
  title : List Char
  content : List Char
  tags : List (List Char)
  version : Nat
  created_at : Nat
  updated_at : Nat
deriving DecidableEq

/-- Relevance score of one entry against a query
(`KnowledgeBase.search`, scoring part).  `eraseDups` plays the role of
`set(query_lower.split())`; the summed score does not depend on set
iteration order. -/
def computeScore (query : List Char) (e : KBEntry) : Nat :=
  let queryLower := lowerStr query
  let queryWords := (splitWs queryLower).eraseDups
  let titleLower := lowerStr e.title
  let contentLower := lowerStr e.content
  let tagsLower := e.tags.map lowerStr
  (if infixB queryLower titleLower then 50 else 0)
    + (if infixB queryLower contentLower then 30 else 0)
    + 20 * queryWords.countP (fun w => decide (w ∈ tagsLower))
    + 10 * queryWords.countP (fun w => infixB w titleLower)
    + 5 * queryWords.countP (fun w => infixB w contentLower)

/-- The optional exact-category filter of `search`. -/
def catMatch (category : Option (List Char)) (e : KBEntry) : Bool :=
  match category with
  | none => true
  | some c => e.category == c

/-- Candidates that pass the category filter and score above 0, paired
with their scores, in store order. -/
def searchScored (entries : List KBEntry) (query : List Char)
    (category : Option (List Char)) : List (KBEntry × Nat) :=
  ((entries.filter (catMatch category)).map (fun e => (e, computeScore query e))).filter
    (fun p => 0 < p.2)

/-- Stable descending insertion by score: walk past strictly greater
scores, stop at the first less-or-equal one. -/
def insertDesc (p : KBEntry × Nat) : List (KBEntry × Nat) → List (KBEntry × Nat)
  | [] => [p]
  | q :: rest => if q.2 > p.2 then q :: insertDesc p rest else p :: q :: rest

/-- Stable descending sort by score.  Python's `list.sort(key=..., reverse=True)`
is a stable sort whose output (for a total preorder on keys) is uniquely
determined, so this insertion sort is extensionally the same function. -/
def sortDesc : List (KBEntry × Nat) → List (KBEntry × Nat)
  | [] => []
  | p :: rest => insertDesc p (sortDesc rest)

/-- The scored-and-sorted result list of `search`, before truncation. -/
def searchSorted (entries : List KBEntry) (query : List Char)
    (category : Option (List Char)) : List (KBEntry × Nat) :=
  sortDesc (searchScored entries query category)

/-- `KnowledgeBase.search`: score, drop zero scores, sort by score
descending (stable), truncate to `limit`, and strip the score. -/
def search (entries : List KBEntry) (query : List Char)
    (category : Option (List Char)) (limit : Nat) : List KBEntry :=
  ((searchSorted entries query category).take limit).map Prod.fst

/-- Field rewriting performed by `update_entry` on the matched entry.
Mirrors Python truthiness: `if title:` skips both `None` and `""`
(likewise for content, and for an empty tag list). -/
def applyUpdate (e : KBEntry) (title content : Option (List Char))
    (tags : Option (List (List Char))) (now : Nat) : KBEntry :=
  { e with
    title := match title with
      | some t => if t ≠ [] then t else e.title
      | none => e.title
    content := match content with
      | some c => if c ≠ [] then c else e.content
      | none => e.content
    tags := match tags with
      | some ts => if ts ≠ [] then ts else e.tags
      | none => e.tags
    version := e.version + 1
    updated_at := now }

/-- `KnowledgeBase.update_entry`: update the first entry with the given
id in place and return it; if no entry matches, return the store
unchanged and `none`. -/
def update_entry (entries : List KBEntry) (entryId : Nat)
    (title content : Option (List Char)) (tags : Option (List (List Char)))
    (now : Nat) : List KBEntry × Option KBEntry :=
  match entries with
  | [] => ([], none)
  | e :: rest =>
    if e.id = entryId then
      (applyUpdate e title content tags now :: rest,
       some (applyUpdate e title content tags now))
    else
      let r := update_entry rest entryId title content tags now
      (e :: r.1, r.2)

/-! ### Helper lemmas -/

/-- The empty needle is a substring of everything (Python `"" in s`). -/
theorem infixB_nil (hay : List Char) : infixB [] hay = true := by
  cases hay with
  | nil => rfl
  | cons c rest => simp [infixB, List.isPrefixOf]

/-- Membership in an `insertDesc` insertion. -/
theorem mem_insertDesc {p q : KBEntry × Nat} {l : List (KBEntry × Nat)} :
    q ∈ insertDesc p l ↔ q = p ∨ q ∈ l := by
  induction l with
  | nil => simp [insertDesc]
  | cons a rest ih =>
    simp only [insertDesc]
    split
    · simp only [List.mem_cons, ih]
      tauto
    · simp only [List.mem_cons]

/-- `sortDesc` preserves membership. -/
theorem mem_sortDesc {q : KBEntry × Nat} {l : List (KBEntry × Nat)} :
    q ∈ sortDesc l ↔ q ∈ l := by
  induction l with
  | nil => simp [sortDesc]
  | cons a rest ih => simp [sortDesc, mem_insertDesc, ih]

/-- Filtering one score class commutes with `insertDesc`: the inserted
element lands in front of the equal-score elements already present. -/
theorem filter_insertDesc (p : KBEntry × Nat) (l : List (KBEntry × Nat)) (s : Nat) :
    (insertDesc p l).filter (fun q => q.2 == s) =
      if p.2 = s then p :: l.filter (fun q => q.2 == s)
      else l.filter (fun q => q.2 == s) := by
  induction l with
  | nil =>
    by_cases hp : p.2 = s <;> simp [insertDesc, List.filter_cons, beq_iff_eq, hp]
  | cons a rest ih =>
    simp only [insertDesc]
    by_cases h : a.2 > p.2
    · rw [if_pos h, List.filter_cons, ih, List.filter_cons]
      by_cases hp : p.2 = s
      · have ha : ¬(a.2 = s) := by omega
        simp [beq_iff_eq, hp, ha]
      · simp [beq_iff_eq, hp]
    · rw [if_neg h, List.filter_cons, List.filter_cons]
      by_cases hp : p.2 = s <;> simp [beq_iff_eq, hp]

/-- Stability of `sortDesc`: each score class keeps its original order. -/
theorem sortDesc_filter (l : List (KBEntry × Nat)) (s : Nat) :
    (sortDesc l).filter (fun q => q.2 == s) = l.filter (fun q => q.2 == s) := by
  induction l with
  | nil => rfl
  | cons a rest ih =>
    rw [sortDesc, filter_insertDesc, ih, List.filter_cons]
    by_cases hp : a.2 = s <;> simp [hp]

/-- Inserting into a descending-sorted list keeps it sorted. -/
theorem pairwise_insertDesc {p : KBEntry × Nat} {l : List (KBEntry × Nat)}
    (h : l.Pairwise (fun a b => b.2 ≤ a.2)) :
    (insertDesc p l).Pairwise (fun a b => b.2 ≤ a.2) := by
  induction l with
  | nil => simp [insertDesc]
  | cons a rest ih =>
    rcases List.pairwise_cons.mp h with ⟨ha, hrest⟩
    simp only [insertDesc]
    by_cases hgt : a.2 > p.2
    · rw [if_pos hgt]
      refine List.pairwise_cons.mpr ⟨?_, ih hrest⟩
      intro q hq
      rcases mem_insertDesc.mp hq with rfl | hq'
      · omega
      · exact ha q hq'
    · rw [if_neg hgt]
      refine List.pairwise_cons.mpr ⟨?_, h⟩
      intro q hq
      rcases List.mem_cons.mp hq with rfl | hq'
      · omega
      · have := ha q hq'
        omega

/-- `sortDesc` output is sorted by score, descending. -/
theorem sortDesc_pairwise (l : List (KBEntry × Nat)) :
    (sortDesc l).Pairwise (fun a b => b.2 ≤ a.2) := by
  induction l with
  | nil => simp [sortDesc]
  | cons a rest ih => exact pairwise_insertDesc ih

/-- Sorting a constant-score list is the identity. -/
theorem sortDesc_const {l : List (KBEntry × Nat)} {s : Nat}
    (h : ∀ p ∈ l, p.2 = s) : sortDesc l = l := by
  induction l with
  | nil => rfl
  | cons a rest ih =>
    have hrest : ∀ p ∈ rest, p.2 = s := fun p hp => h p (List.mem_cons_of_mem _ hp)
    rw [sortDesc, ih hrest]
    cases rest with
    | nil => rfl
    | cons b rest' =>
      have hb : b.2 = s := hrest b (List.mem_cons_self _ _)
      have ha : a.2 = s := h a (List.mem_cons_self _ _)
      simp only [insertDesc]
      rw [if_neg (by omega)]

/-- The classification loop agrees with a first-match table lookup. -/
theorem classifyGo_eq_find? (tbl : List (String × List RE)) (m : List Char) :
    classifyGo tbl m =
      match tbl.find? (fun ip => ip.2.any (fun p => reSearch p m)) with
      | some ip => ip.1
      | none => "UNKNOWN" := by
  induction tbl with
  | nil => rfl
  | cons a rest ih =>
    simp only [classifyGo, List.find?_cons]
    by_cases h : (a.2.any fun p => reSearch p m) = true
    · simp [h]
    · simp [h, ih]

/-- The number-word loop agrees with a first-match table lookup. -/
theorem findNumberWord_eq_find? (tbl : List (List Char × Nat)) (ml : List Char) :
    findNumberWord tbl ml = (tbl.find? (fun wn => infixB wn.1 ml)).map Prod.snd := by
  induction tbl with
  | nil => rfl
  | cons a rest ih =>
    simp only [findNumberWord, List.find?_cons]
    by_cases h : infixB a.1 ml = true
    · simp [h]
    · simp [h, ih]

/-- A hit in the number-word loop comes from the table. -/
theorem findNumberWord_mem {tbl : List (List Char × Nat)} {ml : List Char} {n : Nat}
    (h : findNumberWord tbl ml = some n) : ∃ w, (w, n) ∈ tbl := by
  induction tbl with
  | nil => simp [findNumberWord] at h
  | cons a rest ih =>
    simp only [findNumberWord] at h
    split at h
    · cases h
      exact ⟨a.1, by simp⟩
    · rcases ih h with ⟨w, hw⟩
      exact ⟨w, List.mem_cons_of_mem _ hw⟩

/-- `incFirst` never changes the menu-item ids of the cart lines. -/
theorem incFirst_map_id (itemId qty : Nat) (cart : List CartLine) :
    (incFirst itemId qty cart).map (fun l => l.menu_item_id) =
      cart.map (fun l => l.menu_item_id) := by
  induction cart with
  | nil => rfl
  | cons l rest ih =>
    simp only [incFirst]
    split <;> simp [ih]

/-- `incFirst` never changes the number of cart lines. -/
theorem incFirst_length (itemId qty : Nat) (cart : List CartLine) :
    (incFirst itemId qty cart).length = cart.length := by
  induction cart with
  | nil => rfl
  | cons l rest ih =>
    simp only [incFirst]
    split <;> simp [ih]

/-- Adding an item preserves pairwise-distinct menu-item ids. -/
theorem addToCart_pairwise {cart : List CartLine} (it : MenuItem) (qty : Nat)
    (h : cart.Pairwise (fun a b => a.menu_item_id ≠ b.menu_item_id)) :
    (addToCart cart it qty).Pairwise (fun a b => a.menu_item_id ≠ b.menu_item_id) := by
  unfold addToCart
  by_cases hany : cart.any (fun l => l.menu_item_id == it.id)
  · rw [if_pos hany]
    rw [← List.pairwise_map (f := fun l : CartLine => l.menu_item_id)] at h ⊢
    rw [incFirst_map_id]
    exact h
  · rw [if_neg hany]
    rw [List.pairwise_append]
    refine ⟨h, List.pairwise_singleton _ _, ?_⟩
    intro a ha b hb
    simp only [List.mem_singleton] at hb
    subst hb
    have := (List.any_eq_true.not.mp hany)
    push_neg at this
    have hne := this a ha
    simpa using hne

/-- Folding cart additions preserves pairwise-distinct menu-item ids. -/
theorem foldl_addToCart_pairwise (items : List MenuItem) (qty : Nat)
    {cart : List CartLine}
    (h : cart.Pairwise (fun a b => a.menu_item_id ≠ b.menu_item_id)) :
    (items.foldl (fun c it => addToCart c it qty) cart).Pairwise
      (fun a b => a.menu_item_id ≠ b.menu_item_id) := by
  induction items generalizing cart with
  | nil => exact h
  | cons it rest ih => exact ih (addToCart_pairwise it qty h)

/-! ### Spec-side formulations and concrete fixtures -/

/-- The intent-classification contract as §4.1 of the spec words it: the
first category (in table order) whose pattern set matches the
lower-cased, trimmed message; `UNKNOWN` when none matches.  Used as the
refinement target for the loop-shaped `classify_intent`. -/
def specClassify (message : List Char) : String :=
  match INTENT_PATTERNS.find?
      (fun ip => ip.2.any (fun p => reSearch p (stripStr (lowerStr message)))) with
  | some ip => ip.1
  | none => "UNKNOWN"

/-- The quantity-extraction contract as §4.2 of the spec words it: the
first number word (table order) contained in the lower-cased message;
else the first decimal digit run; else 1.  Refinement target for the
loop-shaped `extract_quantity`. -/
def specQuantity (message : List Char) : Nat :=
  match (numberWords.find? (fun wn => infixB wn.1 (lowerStr message))).map Prod.snd with
  | some n => n
  | none =>
    match firstDigitRun message with
    | some ds => digitsToNat ds
    | none => 1

/-- A concrete menu item used in concrete evaluations. -/
def margMenuItem : MenuItem :=
  { id := 1, item := "Margherita Pizza".toList, price := 10, category := "Pizza".toList }

/-- A concrete knowledge entry (the first seeded entry, with timestamps
fixed), used in concrete evaluations. -/
def kbMargherita : KBEntry :=
  { id := 1, category := "ingredients".toList,
    title := "Margherita Pizza Ingredients".toList,
    content := "Made with tomato sauce and basil.".toList,
    tags := ["margherita".toList, "pizza".toList],
    version := 1, created_at := 0, updated_at := 0 }

/-- A concrete knowledge entry with a short title, used to exercise
`update_entry`. -/
def kbTitleA : KBEntry :=
  { id := 1, category := "faqs".toList, title := "A".toList,
    content := "c".toList, tags := ["t".toList],
    version := 1, created_at := 0, updated_at := 0 }

/-- A concrete session holding one cart line (price 10, quantity 2). -/
def demoSession : Session :=
  { cart := [{ menu_item_id := 1, item := "Margherita Pizza".toList,
               price := 10, quantity := 2 }],
    pending_order := none, last_intent := none, order_history := [] }

/-- The older of two concrete orders from the same phone number. -/
def trackO1 : OrderRec :=
  { id := 1, status := "Pending".toList, total_amount := 5,
    customer_phone := "123".toList, created_at := 100 }

/-- The newer of two concrete orders from the same phone number. -/
def trackO2 : OrderRec :=
  { id := 2, status := "Pending".toList, total_amount := 7,
    customer_phone := "123".toList, created_at := 200 }

/-- Every entry scores exactly 80 against the empty query: the two
verbatim-phrase checks vacuously succeed (the empty string is a substring
of everything) and there are no query words. -/
theorem computeScore_nil (e : KBEntry) : computeScore [] e = 80 := by
  simp [computeScore, lowerStr, splitWs, splitWsAux, infixB_nil, List.eraseDups,
    List.eraseDups.loop, List.countP_nil]

/-! ### Claim theorems -/

/-- C4: `classify_intent` returns the first intent category in the fixed
rule-table order for which at least one of the category's patterns
matches the lower-cased, whitespace-trimmed message, and returns
`UNKNOWN` when no category's pattern matches; being a Lean function of
the message and the static table, it is pure. -/
theorem C4_classify_first_match (message : List Char) :
    classify_intent message = specClassify message := by
  unfold classify_intent specClassify
  exact classifyGo_eq_find? INTENT_PATTERNS (stripStr (lowerStr message))

/-- C3 counterexample: the claim asserts `extract_quantity` always
returns an integer ≥ 1, but on the message "0" (no number word, digit
run "0") it returns 0. -/
theorem C3_quantity_zero : extract_quantity ("0".toList) = 0
    ∧ ¬ 1 ≤ extract_quantity ("0".toList) := by
  decide

/-- C3 amended: `extract_quantity` follows the spec's algorithm (first
number word in table order, then first digit run, then default 1), the
table order equals value order 1..10, and the three spec examples hold;
the result is ≥ 1 except when no number word occurs and the first digit
run parses to 0, in which case the result is 0. -/
theorem C3_quantity_amended :
    (∀ message : List Char, extract_quantity message = specQuantity message)
    ∧ (∀ message : List Char,
        1 ≤ extract_quantity message ∨
          (extract_quantity message = 0
            ∧ findNumberWord numberWords (lowerStr message) = none
            ∧ ∃ ds, firstDigitRun message = some ds ∧ digitsToNat ds = 0))
    ∧ numberWords.map Prod.snd = [1, 2, 3, 4, 5, 6, 7, 8, 9, 10]
    ∧ extract_quantity ("two pepperoni pizzas".toList) = 2
    ∧ extract_quantity ("pizza".toList) = 1
    ∧ extract_quantity ("order 5".toList) = 5 := by
  refine ⟨?_, ?_, by decide, by decide, by decide, by decide⟩
  · intro message
    unfold extract_quantity specQuantity
    rw [findNumberWord_eq_find?]
  · intro message
    unfold extract_quantity
    cases h : findNumberWord numberWords (lowerStr message) with
    | some n =>
      left
      rcases findNumberWord_mem h with ⟨w, hw⟩
      have hall : ∀ p ∈ numberWords, 1 ≤ p.2 := by decide
      exact hall (w, n) hw
    | none =>
      cases hd : firstDigitRun message with
      | some ds =>
        rcases Nat.eq_zero_or_pos (digitsToNat ds) with h0 | h1
        · right
          exact ⟨h0, rfl, ds, rfl, h0⟩
        · left
          exact h1
      | none => simp

/-- C10: number-word detection in `extract_quantity` is plain substring
containment: whenever the table lookup finds a (possibly embedded)
number word, its value is returned and any digit run in the message is
ignored; in particular "my phone is 042" yields 1 (from the "one" inside
"phone"), not 42, although its first digit run parses to 42. -/
theorem C10_substring_number_words :
    (∀ (message w : List Char) (v : Nat),
        numberWords.find? (fun wn => infixB wn.1 (lowerStr message)) = some (w, v) →
          extract_quantity message = v)
    ∧ extract_quantity ("my phone is 042".toList) = 1
    ∧ firstDigitRun ("my phone is 042".toList) = some ("042".toList)
    ∧ digitsToNat ("042".toList) = 42 := by
  refine ⟨?_, by decide, by decide, by decide⟩
  intro message w v h
  unfold extract_quantity
  rw [findNumberWord_eq_find?, h]
  rfl

/-- C10 witness: on "my phone is 042" the table lookup hits ("one", 1)
and the theorem yields 1. -/
theorem C10_substring_number_words_check :
    numberWords.find?
        (fun wn => infixB wn.1 (lowerStr ("my phone is 042".toList)))
        = some ("one".toList, 1)
    ∧ extract_quantity ("my phone is 042".toList) = 1 := by
  refine ⟨by decide, ?_⟩
  exact C10_substring_number_words.1 ("my phone is 042".toList) ("one".toList) 1 (by decide)

/-- C2 counterexample: the claim asserts every score stays 0 on an
empty-after-normalization query, but the empty query gives every entry
the two vacuous phrase-match bonuses (score 80), so `search` returns
entries. -/
theorem C2_empty_query_hits : computeScore [] kbMargherita = 80
    ∧ search [kbMargherita] [] none 5 = [kbMargherita] := by
  constructor
  · decide
  · decide

/-- C2 amended: on the empty query the word-level contributions are
empty but the two verbatim-phrase checks succeed for every entry (the
empty string is a substring of everything), so every candidate scores
exactly 80 and `search` returns the first `limit` category-matching
entries in store order. -/
theorem C2_empty_query_amended (entries : List KBEntry)
    (category : Option (List Char)) (limit : Nat) :
    search entries [] category limit = (entries.filter (catMatch category)).take limit
    ∧ ∀ e : KBEntry, computeScore [] e = 80 := by
  refine ⟨?_, computeScore_nil⟩
  have hsc : ∀ l : List KBEntry,
      (l.map (fun e => (e, computeScore [] e))).filter (fun p => 0 < p.2)
        = l.map (fun e => (e, 80)) := by
    intro l
    induction l with
    | nil => rfl
    | cons e rest ih =>
      simp only [List.map_cons, List.filter_cons, computeScore_nil] at ih ⊢
      rw [ih]
      simp
  have hconst : ∀ p ∈ (entries.filter (catMatch category)).map
      (fun e => (e, (80 : Nat))), p.2 = 80 := by
    intro p hp
    rcases List.mem_map.mp hp with ⟨e, _, rfl⟩
    rfl
  unfold search searchSorted searchScored
  rw [hsc, sortDesc_const hconst, ← List.map_take, List.map_map]
  have hid : (Prod.fst ∘ fun e : KBEntry => (e, (80 : Nat))) = id := rfl
  rw [hid, List.map_id]

/-- C7: `search` returns at most `limit` entries, never an entry with a
zero score, in descending score order; the sort is stable (each score
class keeps its store order); and every returned entry comes from the
store (score-free by type). -/
theorem C7_search_shape (entries : List KBEntry) (query : List Char)
    (category : Option (List Char)) (limit : Nat) :
    (search entries query category limit).length ≤ limit
    ∧ (∀ e ∈ search entries query category limit, computeScore query e ≠ 0)
    ∧ (search entries query category limit).Pairwise
        (fun a b => computeScore query b ≤ computeScore query a)
    ∧ (∀ s, (searchSorted entries query category).filter (fun q => q.2 == s)
          = (searchScored entries query category).filter (fun q => q.2 == s))
    ∧ (∀ e ∈ search entries query category limit, e ∈ entries) := by
  have hmem : ∀ p ∈ searchSorted entries query category,
      p.2 = computeScore query p.1 ∧ 0 < p.2 ∧ p.1 ∈ entries := by
    intro p hp
    have hp' : p ∈ searchScored entries query category := by
      unfold searchSorted at hp
      exact mem_sortDesc.mp hp
    unfold searchScored at hp'
    rcases List.mem_filter.mp hp' with ⟨hpm, hpos⟩
    rcases List.mem_map.mp hpm with ⟨e, he, rfl⟩
    exact ⟨rfl, by simpa using hpos, (List.mem_filter.mp he).1⟩
  have htk : ∀ p ∈ (searchSorted entries query category).take limit,
      p ∈ searchSorted entries query category := fun p hp => List.mem_of_mem_take hp
  refine ⟨?_, ?_, ?_, ?_, ?_⟩
  · unfold search
    rw [List.length_map, List.length_take]
    exact min_le_left _ _
  · intro e he
    rcases List.mem_map.mp he with ⟨p, hp, rfl⟩
    have h := hmem p (htk p hp)
    omega
  · unfold search
    rw [List.pairwise_map]
    have hsorted : (searchSorted entries query category).Pairwise
        (fun a b => b.2 ≤ a.2) := sortDesc_pairwise _
    have htake : ((searchSorted entries query category).take limit).Pairwise
        (fun a b => b.2 ≤ a.2) :=
      hsorted.sublist (List.take_sublist _ _)
    refine htake.imp_of_mem ?_
    intro a b ha hb hab
    have h1 := hmem a (htk a ha)
    have h2 := hmem b (htk b hb)
    omega
  · intro s
    unfold searchSorted
    exact sortDesc_filter _ s
  · intro e he
    rcases List.mem_map.mp he with ⟨p, hp, rfl⟩
    exact (hmem p (htk p hp)).2.2

/-- C7 witness: on a one-entry store with a scoring query, `search`
returns at most 2 entries, and the returned entry's score is nonzero. -/
theorem C7_search_shape_check :
    (search [kbMargherita] ("pizza".toList) none 2).length ≤ 2
    ∧ computeScore ("pizza".toList) kbMargherita ≠ 0 := by
  refine ⟨(C7_search_shape [kbMargherita] ("pizza".toList) none 2).1, ?_⟩
  exact (C7_search_shape [kbMargherita] ("pizza".toList) none 2).2.1 kbMargherita
    (by decide)

/-- C9: processing a message that classifies as `UNKNOWN` twice leaves
the session exactly as after the first call — the Unknown branch only
re-records the same `last_intent` and touches nothing else. -/
theorem C9_unknown_idempotent (message : List Char) (menu1 menu2 : List MenuItem)
    (s : Session) (h : classify_intent message = "UNKNOWN") :
    sessionStep message menu2 (sessionStep message menu1 s) = sessionStep message menu1 s := by
  have h1 : ("UNKNOWN" : String) ≠ "ORDER_INTENT" := by decide
  have h2 : ("UNKNOWN" : String) ≠ "CANCEL_ORDER" := by decide
  simp [sessionStep, h, h1, h2]

/-- C9 witness: "qqq" classifies as `UNKNOWN` and a second identical
call leaves the session unchanged. -/
theorem C9_unknown_idempotent_check :
    classify_intent ("qqq".toList) = "UNKNOWN"
    ∧ sessionStep ("qqq".toList) [] (sessionStep ("qqq".toList) [] freshSession)
        = sessionStep ("qqq".toList) [] freshSession :=
  ⟨by decide, C9_unknown_idempotent ("qqq".toList) [] [] freshSession (by decide)⟩

/-- C6: the CONFIRM_ORDER branch never mutates the cart — the session
step only records the intent; an empty cart yields no payload (and thus
no total), a non-empty cart yields the cart, the total
Σ(unitPrice × quantity), and the details-requested flag. -/
theorem C6_confirm_frame (message : List Char) (menu : List MenuItem) (s : Session)
    (h : classify_intent message = "CONFIRM_ORDER") :
    sessionStep message menu s = { s with last_intent := some "CONFIRM_ORDER" }
    ∧ (sessionStep message menu s).cart = s.cart
    ∧ (s.cart = [] → confirmOrderData s = none)
    ∧ (s.cart ≠ [] →
        confirmOrderData s
          = some (s.cart, (s.cart.map (fun l => l.price * (l.quantity : ℚ))).sum, true)) := by
  have h1 : ("CONFIRM_ORDER" : String) ≠ "ORDER_INTENT" := by decide
  have h2 : ("CONFIRM_ORDER" : String) ≠ "CANCEL_ORDER" := by decide
  refine ⟨by simp [sessionStep, h, h1, h2], by simp [sessionStep, h, h1, h2], ?_, ?_⟩
  · intro hc
    simp [confirmOrderData, hc]
  · intro hc
    simp [confirmOrderData, hc, cartTotal]

/-- C6 witness: "confirm" classifies as CONFIRM_ORDER; on a session with
one line (price 10, quantity 2) the cart is untouched and the payload
total is 20. -/
theorem C6_confirm_frame_check :
    classify_intent ("confirm".toList) = "CONFIRM_ORDER"
    ∧ (sessionStep ("confirm".toList) [] demoSession).cart = demoSession.cart
    ∧ confirmOrderData demoSession
        = some (demoSession.cart,
            (demoSession.cart.map (fun l => l.price * (l.quantity : ℚ))).sum, true) := by
  have h := C6_confirm_frame ("confirm".toList) [] demoSession (by decide)
  exact ⟨by decide, h.2.1, h.2.2.2 (by decide)⟩

/-- C5 counterexample: the session reached from a fresh context by the
single OrderIntent message "order 0 margherita" holds a cart line with
quantity 0 — refuting the claimed invariant that every line's quantity
is ≥ 1. -/
theorem C5_quantity_zero_reachable :
    Reachable (sessionStep ("order 0 margherita".toList) [margMenuItem] freshSession)
    ∧ (sessionStep ("order 0 margherita".toList) [margMenuItem] freshSession).cart
        = [{ menu_item_id := 1, item := "Margherita Pizza".toList, price := 10,
             quantity := 0 }] :=
  ⟨Reachable.step _ _ Reachable.init, by decide⟩

/-- One session step preserves pairwise-distinct cart menu-item ids. -/
theorem sessionStep_pairwise (message : List Char) (menu : List MenuItem) (s : Session)
    (h : s.cart.Pairwise fun a b => a.menu_item_id ≠ b.menu_item_id) :
    (sessionStep message menu s).cart.Pairwise
      (fun a b => a.menu_item_id ≠ b.menu_item_id) := by
  unfold sessionStep
  by_cases h1 : classify_intent message = "ORDER_INTENT"
  · simp [h1, orderIntentCart]
    exact foldl_addToCart_pairwise _ _ h
  · by_cases h2 : classify_intent message = "CANCEL_ORDER"
    · simp only [h1, h2]
      by_cases hc : s.cart = [] <;> simp [h1, h2, hc, h]
    · simp [h1, h2, h]

/-- C5 amended: in every reachable session the cart lines have
pairwise-distinct menu-item ids; the OrderIntent handler increments an
existing line instead of appending (ids and length unchanged), and
adding the same item twice from an empty cart yields one line whose
quantity is the sum — concretely, "i want a margherita" twice yields one
line with quantity 2.  Quantities, however, can be 0 (see the
counterexample), so only quantity ≥ 0 holds. -/
theorem C5_cart_invariant_amended :
    (∀ s : Session, Reachable s →
        s.cart.Pairwise (fun a b => a.menu_item_id ≠ b.menu_item_id))
    ∧ (∀ (cart : List CartLine) (it : MenuItem) (qty : Nat),
        (∃ l ∈ cart, l.menu_item_id = it.id) →
          (addToCart cart it qty).map (fun l => l.menu_item_id)
              = cart.map (fun l => l.menu_item_id)
            ∧ (addToCart cart it qty).length = cart.length)
    ∧ (∀ (it : MenuItem) (q1 q2 : Nat),
        addToCart (addToCart [] it q1) it q2
          = [{ menu_item_id := it.id, item := it.item, price := it.price,
               quantity := q1 + q2 }])
    ∧ (sessionStep ("i want a margherita".toList) [margMenuItem]
          (sessionStep ("i want a margherita".toList) [margMenuItem] freshSession)).cart
        = [{ menu_item_id := 1, item := "Margherita Pizza".toList, price := 10,
             quantity := 2 }] := by
  refine ⟨?_, ?_, ?_, by decide⟩
  · intro s hs
    induction hs with
    | init => simp [freshSession]
    | step message menu hs ih => exact sessionStep_pairwise message _ _ ih
  · intro cart it qty hex
    rcases hex with ⟨l, hl, hid⟩
    have hany : cart.any (fun x => x.menu_item_id == it.id) = true :=
      List.any_eq_true.mpr ⟨l, hl, by simp [hid]⟩
    unfold addToCart
    rw [if_pos hany]
    exact ⟨incFirst_map_id _ _ _, incFirst_length _ _ _⟩
  · intro it q1 q2
    simp [addToCart, incFirst]

/-- C5 witness: the session after one "i want a margherita" step has
pairwise-distinct cart ids, and adding the item again keeps the cart at
one line. -/
theorem C5_cart_invariant_amended_check :
    (sessionStep ("i want a margherita".toList) [margMenuItem] freshSession).cart.Pairwise
      (fun a b => a.menu_item_id ≠ b.menu_item_id)
    ∧ (addToCart [{ menu_item_id := 1, item := "Margherita Pizza".toList, price := 10,
                    quantity := 1 }] margMenuItem 1).length = 1 := by
  constructor
  · exact C5_cart_invariant_amended.1 _ (Reachable.step _ _ Reachable.init)
  · have h := (C5_cart_invariant_amended.2.1
      [{ menu_item_id := 1, item := "Margherita Pizza".toList, price := 10, quantity := 1 }]
      margMenuItem 1 ⟨_, List.mem_singleton_self _, by decide⟩).2
    simpa using h

/-- C8 counterexample: supplying an explicitly empty title to
`update_entry` does not overwrite the title (Python falsiness of `""`),
although the version still increments — refuting "overwrites exactly the
supplied fields". -/
theorem C8_empty_title_not_written :
    (update_entry [kbTitleA] 1 (some []) none none 99).2
        = some { kbTitleA with version := 2, updated_at := 99 }
    ∧ ((update_entry [kbTitleA] 1 (some []) none none 99).2.map KBEntry.title)
        ≠ some [] := by
  constructor
  · decide
  · decide

/-- C8 amended: `update_entry` rewrites the first entry carrying the
requested id — overwriting exactly the supplied non-empty fields,
incrementing its version, refreshing its timestamp, and leaving its
other fields and all other entries unchanged — and returns the store
unchanged with no entry when no id matches. -/
theorem C8_update_entry_amended :
    (∀ (pre post : List KBEntry) (e : KBEntry) (entryId : Nat)
        (title content : Option (List Char)) (tags : Option (List (List Char)))
        (now : Nat),
        e.id = entryId → (∀ x ∈ pre, x.id ≠ entryId) →
          update_entry (pre ++ e :: post) entryId title content tags now
            = (pre ++ applyUpdate e title content tags now :: post,
               some (applyUpdate e title content tags now)))
    ∧ (∀ (entries : List KBEntry) (entryId : Nat)
        (title content : Option (List Char)) (tags : Option (List (List Char)))
        (now : Nat),
        (∀ x ∈ entries, x.id ≠ entryId) →
          update_entry entries entryId title content tags now = (entries, none))
    ∧ (∀ (e : KBEntry) (now : Nat),
        applyUpdate e none none none now
          = { e with version := e.version + 1, updated_at := now })
    ∧ (∀ (e : KBEntry) (title content : Option (List Char))
        (tags : Option (List (List Char))) (now : Nat),
        (applyUpdate e title content tags now).version = e.version + 1
        ∧ (applyUpdate e title content tags now).updated_at = now
        ∧ (applyUpdate e title content tags now).id = e.id
        ∧ (applyUpdate e title content tags now).category = e.category
        ∧ (applyUpdate e title content tags now).created_at = e.created_at) := by
  refine ⟨?_, ?_, ?_, ?_⟩
  · intro pre post e entryId title content tags now h1 h2
    induction pre with
    | nil => simp [update_entry, h1]
    | cons x rest ih =>
      have hx : x.id ≠ entryId := h2 x (List.mem_cons_self _ _)
      simp only [List.cons_append, update_entry, if_neg hx, List.append_eq]
      rw [ih (fun y hy => h2 y (List.mem_cons_of_mem _ hy))]
  · intro entries entryId title content tags now h
    induction entries with
    | nil => rfl
    | cons x rest ih =>
      have hx : x.id ≠ entryId := h x (List.mem_cons_self _ _)
      simp only [update_entry, if_neg hx]
      rw [ih (fun y hy => h y (List.mem_cons_of_mem _ hy))]
  · intro e now
    rfl
  · intro e title content tags now
    exact ⟨rfl, rfl, rfl, rfl, rfl⟩

/-- C8 witness: updating the one-entry store with a non-empty title
produces the applied update in place and returns it. -/
theorem C8_update_entry_amended_check :
    update_entry [kbTitleA] 1 (some ("New".toList)) none none 99
      = ([applyUpdate kbTitleA (some ("New".toList)) none none 99],
         some (applyUpdate kbTitleA (some ("New".toList)) none none 99)) := by
  have h := C8_update_entry_amended.1 [] [] kbTitleA 1 (some ("New".toList)) none none 99
    (by decide) (by simp)
  simpa using h

/-- C1: against a snapshot sorted newest-first with two orders from the
caller's phone, a TrackOrder message with no digits makes the handler
take `user_orders[-1]` — the OLDEST matching order — although the spec
and the code's own comment say the most recent one. -/
theorem C1_track_selects_oldest :
    classify_intent ("track my order".toList) = "TRACK_ORDER"
    ∧ extractOrderId ("track my order".toList) = none
    ∧ trackO2.created_at > trackO1.created_at
    ∧ trackO2.customer_phone = ("123".toList)
    ∧ trackO1.customer_phone = ("123".toList)
    ∧ trackTarget [trackO2, trackO1] ("123".toList) ("track my order".toList)
        = some trackO1 := by
  refine ⟨by decide, by decide, by decide, by decide, by decide, by decide⟩

end Chatbot

